import Mathlib

/-!
Verification of the nostr event identity model, key handling, timestamp
arithmetic and client facade, as a shallow embedding of the Rust source
(crates/nostr and crates/nostr-sdk).  The secp256k1 schnorr primitives and
the SHA-256 based id computation live in external crates; they are made
parameters of the development (a `CryptoCtx` record of functions), so every
definition stays executable and every control-flow decision of the embedded
code is taken exactly as the source takes it.
-/

namespace Nostr

/-- Stand-in for the 32-byte x-only public key (secp256k1::XOnlyPublicKey). -/
abbrev Pubkey := Nat

/-- Stand-in for the 32-byte secret scalar (secp256k1::SecretKey). -/
abbrev SecretKey := Nat

/-- Stand-in for secp256k1::KeyPair. -/
abbrev KeyPair := Nat

/-- Stand-in for the 64-byte schnorr signature (secp256k1::schnorr::Signature). -/
abbrev Sig := Nat

/-- Stand-in for the 32-byte event id (event/id.rs, a SHA-256 digest). -/
abbrev EventId := Nat

/-- Stand-in for the event kind (event/kind.rs: an integer category). -/
abbrev Kind := Nat

/-- A tag is an ordered sequence of strings (event/tag.rs serializes it so). -/
abbrev Tag := List String

/-- Unix timestamp in seconds, wrapping a signed 64-bit value
(types/time.rs, `pub struct Timestamp(i64)`); the i64 is embedded as an
`Int` together with the explicit bounds `i64Min`/`i64Max`. -/
structure Timestamp where
  val : Int
deriving DecidableEq

/-- The cryptographic collaborators of the event model, as functions:
`computeId` is `EventId::new` (SHA-256 of the canonical serialization,
event/id.rs, not under src/), `schnorrVerify` is
`Secp256k1::verify_schnorr` on the 32-byte message, `signSchnorr` is
`Secp256k1::sign_schnorr`, and the two key maps are
`KeyPair::from_secret_key` and `XOnlyPublicKey::from_keypair`.  All of
these live in external crates (secp256k1, bitcoin_hashes). -/
structure CryptoCtx where
  computeId : Pubkey → Timestamp → Kind → List Tag → String → EventId
  schnorrVerify : Sig → EventId → Pubkey → Bool
  signSchnorr : KeyPair → EventId → Sig
  keypairFromSecret : SecretKey → KeyPair
  pkFromKeypair : KeyPair → Pubkey

/-- event::Error (event/mod.rs lines 41-59): the complete variant list of
the source enum — note there is no id-mismatch variant. -/
inductive EventError where
  | InvalidSignature
  | Json
  | Secp256k1
  | Hex
deriving DecidableEq

/-- key::Error (key/mod.rs lines 31-48). -/
inductive KeyError where
  | InvalidSecretKey
  | InvalidPublicKey
  | SkMissing
  | InvalidChar (c : Char)
  | Secp256k1
deriving DecidableEq

/-- unsigned::Error (event/unsigned.rs lines 18-32). -/
inductive UnsignedError where
  | Key (e : KeyError)
  | Json
  | Secp256k1
  | Event (e : EventError)
deriving DecidableEq

/-- `Event` (event/mod.rs lines 80-100), without the nip03-gated `ots`
field (that feature is off in the embedded configuration). -/
structure Event where
  id : EventId
  pubkey : Pubkey
  created_at : Timestamp
  kind : Kind
  tags : List Tag
  content : String
  sig : Sig
deriving DecidableEq

/-- `UnsignedEvent` (event/unsigned.rs lines 46-61). -/
structure UnsignedEvent where
  id : EventId
  pubkey : Pubkey
  created_at : Timestamp
  kind : Kind
  tags : List Tag
  content : String
deriving DecidableEq

/-- `Event::verify_with_context` (event/mod.rs lines 110-121): recompute
the id from the event's own fields, then verify the schnorr signature
against that recomputed id and the stored pubkey.  The stored `id` field
is never consulted.  `Message::from_slice(id.as_bytes())` cannot fail
since an `EventId` is always 32 bytes, so the embedded code keeps only the
signature check. -/
def Event.verify_with_context (C : CryptoCtx) (e : Event) : Except EventError Unit :=
  let id := C.computeId e.pubkey e.created_at e.kind e.tags e.content
  if C.schnorrVerify e.sig id e.pubkey then Except.ok () else Except.error EventError.InvalidSignature

/-- `Keys` (key/mod.rs lines 67-72). -/
structure Keys where
  public_key : Pubkey
  key_pair : Option KeyPair
  secret_key : Option SecretKey
deriving DecidableEq

/-- `Keys::new` (key/mod.rs lines 76-85). -/
def Keys.new (C : CryptoCtx) (secret_key : SecretKey) : Keys :=
  let key_pair := C.keypairFromSecret secret_key
  { public_key := C.pkFromKeypair key_pair
    key_pair := some key_pair
    secret_key := some secret_key }

/-- `Keys::from_public_key` (key/mod.rs lines 88-94). -/
def Keys.from_public_key (public_key : Pubkey) : Keys :=
  { public_key := public_key, key_pair := none, secret_key := none }

/-- `Keys::secret_key` (key/mod.rs lines 133-139); named `get_secret_key`
because the structure field already carries the source name. -/
def Keys.get_secret_key (k : Keys) : Except KeyError SecretKey :=
  match k.secret_key with
  | some sk => Except.ok sk
  | none => Except.error KeyError.SkMissing

/-- `Keys::key_pair` (key/mod.rs lines 144-151). -/
def Keys.get_key_pair (C : CryptoCtx) (k : Keys) : Except KeyError KeyPair :=
  match k.key_pair with
  | some kp => Except.ok kp
  | none =>
    match k.get_secret_key with
    | Except.ok sk => Except.ok (C.keypairFromSecret sk)
    | Except.error e => Except.error e

/-- `Keys::sign_schnorr` (key/mod.rs lines 153-157). -/
def Keys.sign_schnorr (C : CryptoCtx) (k : Keys) (message : EventId) : Except KeyError Sig :=
  match k.get_key_pair C with
  | Except.ok kp => Except.ok (C.signSchnorr kp message)
  | Except.error e => Except.error e

/-- `UnsignedEvent::sign` (event/unsigned.rs lines 66-79): the signed
message is the *stored* id of the unsigned event; all other fields are
carried over unchanged. -/
def UnsignedEvent.sign (C : CryptoCtx) (u : UnsignedEvent) (keys : Keys) : Except UnsignedError Event :=
  match keys.sign_schnorr C u.id with
  | Except.error e => Except.error (UnsignedError.Key e)
  | Except.ok s =>
    Except.ok
      { id := u.id, pubkey := u.pubkey, created_at := u.created_at, kind := u.kind
        tags := u.tags, content := u.content, sig := s }

/-- The event literal built inside `UnsignedEvent::add_signature`
(event/unsigned.rs lines 100-110): the unsigned fields plus the given
signature. -/
def UnsignedEvent.assemble (u : UnsignedEvent) (sig : Sig) : Event :=
  { id := u.id, pubkey := u.pubkey, created_at := u.created_at, kind := u.kind
    tags := u.tags, content := u.content, sig := sig }

/-- `UnsignedEvent::add_signature` (event/unsigned.rs lines 97-113):
assemble the event, run `verify` on it, and return it only when the
verification succeeds. -/
def UnsignedEvent.add_signature (C : CryptoCtx) (u : UnsignedEvent) (sig : Sig) : Except UnsignedError Event :=
  let event := u.assemble sig
  match event.verify_with_context C with
  | Except.error e => Except.error (UnsignedError.Event e)
  | Except.ok () => Except.ok event

/-- Concrete instantiation of the crypto parameters used by the concrete
witnesses: ids are computed by an executable fingerprint of the fields and
a signature is the `Nat.pair` of the keypair and the signed message, so
that verification succeeds exactly for the signing key and the signed
message. -/
def toyEncodeTags (tags : List Tag) : Nat :=
  tags.foldl (fun a t => a + t.foldl (fun b s => b + s.length + 1) 1) 0

/-- Executable id fingerprint for the toy context. -/
def toyComputeId (pk : Pubkey) (ts : Timestamp) (k : Kind) (tags : List Tag) (content : String) : EventId :=
  pk + 3 * ts.val.toNat + 5 * k + 7 * toyEncodeTags tags + 11 * content.length + 13

/-- The toy crypto context. -/
def toyCtx : CryptoCtx :=
  { computeId := toyComputeId
    schnorrVerify := fun s m p => s == Nat.pair p m
    signSchnorr := fun kp m => Nat.pair kp m
    keypairFromSecret := fun sk => sk
    pkFromKeypair := fun kp => kp }

/-- In the toy context a signature over one message never verifies for a
different message. -/
theorem toyCtx_bind (kp idv m p : Nat) (hm : m ≠ idv) :
    toyCtx.schnorrVerify (toyCtx.signSchnorr kp idv) m p = false := by
  simp only [toyCtx, beq_eq_false_iff_ne, ne_eq, Nat.pair_eq_pair]
  intro h
  exact hm h.2.symm

deriving instance DecidableEq for Except

/-- Concrete event used by the concrete verification results: its stored
id (999) differs from its recomputed toy id, while its signature is valid
for the recomputed id under its pubkey. -/
def eMismatch : Event :=
  { id := 999, pubkey := 7, created_at := { val := 5 }, kind := 1, tags := []
    content := "", sig := Nat.pair 7 (toyComputeId 7 { val := 5 } 1 [] "") }

/-- C1: `Event::verify_with_context` is the signature check against the
recomputed id and the stored pubkey, and nothing else: its result is
exactly the schnorr check on the recomputed id, the only error it can
produce is `InvalidSignature` (the source error enum has no id-mismatch
variant), and the stored `id` field does not influence the result at
all. -/
theorem verify_is_sig_check_on_recomputed_id (C : CryptoCtx) (e : Event) :
    (e.verify_with_context C =
      if C.schnorrVerify e.sig (C.computeId e.pubkey e.created_at e.kind e.tags e.content) e.pubkey
      then Except.ok () else Except.error EventError.InvalidSignature)
    ∧ (∀ err, e.verify_with_context C = Except.error err → err = EventError.InvalidSignature)
    ∧ (∀ id2, Event.verify_with_context C { e with id := id2 } = e.verify_with_context C) := by
  refine ⟨rfl, ?_, fun id2 => rfl⟩
  intro err herr
  unfold Event.verify_with_context at herr
  by_cases h : C.schnorrVerify e.sig (C.computeId e.pubkey e.created_at e.kind e.tags e.content) e.pubkey
  · simp [h] at herr
  · simp [h] at herr
    exact herr.symm

/-- C1 witness: the characterization evaluated on a concrete context and
event. -/
theorem verify_is_sig_check_on_recomputed_id_w :
    Event.verify_with_context toyCtx { eMismatch with id := 0 } =
      Event.verify_with_context toyCtx eMismatch :=
  (verify_is_sig_check_on_recomputed_id toyCtx eMismatch).2.2 0

/-- C1 counterexample: an event whose recomputed id disagrees with its
stored id is *not* rejected with an id-mismatch error — `verify` accepts
it outright, because the stored id is never compared with the recomputed
one. -/
theorem verify_accepts_stored_id_mismatch :
    toyCtx.computeId eMismatch.pubkey eMismatch.created_at eMismatch.kind
        eMismatch.tags eMismatch.content ≠ eMismatch.id
    ∧ Event.verify_with_context toyCtx eMismatch = Except.ok () := by
  constructor
  · decide
  · decide

/-- Unfolding equation of `Event::verify_with_context`. -/
theorem verify_def (C : CryptoCtx) (e : Event) :
    e.verify_with_context C =
      if C.schnorrVerify e.sig (C.computeId e.pubkey e.created_at e.kind e.tags e.content) e.pubkey
      then Except.ok () else Except.error EventError.InvalidSignature := rfl

/-- C2: an unsigned event whose stored id is the id recomputed from its
fields, signed with keys holding a secret key, verifies; tampering with
any field that changes the recomputed id — content, created_at, kind, a
tag — or with the pubkey or the signature makes verify fail with
`InvalidSignature`; but changing the stored `id` field alone does *not*
make verify fail, since verify never reads it.  The hypotheses state what
the external schnorr scheme guarantees: the produced signature verifies
for the signed message (`hok`) and for no other message (`hbind`). -/
theorem sign_then_verify (C : CryptoCtx) (u : UnsignedEvent) (keys : Keys) (kp : KeyPair)
    (hkp : keys.get_key_pair C = Except.ok kp)
    (hid : C.computeId u.pubkey u.created_at u.kind u.tags u.content = u.id)
    (hok : C.schnorrVerify (C.signSchnorr kp u.id) u.id u.pubkey = true)
    (hbind : ∀ m, m ≠ u.id → C.schnorrVerify (C.signSchnorr kp u.id) m u.pubkey = false) :
    ∃ e : Event,
      u.sign C keys = Except.ok e
      ∧ e.sig = C.signSchnorr kp u.id
      ∧ e.verify_with_context C = Except.ok ()
      ∧ (∀ id2, Event.verify_with_context C { e with id := id2 } = Except.ok ())
      ∧ (∀ c2, C.computeId u.pubkey u.created_at u.kind u.tags c2 ≠ u.id →
          Event.verify_with_context C { e with content := c2 } =
            Except.error EventError.InvalidSignature)
      ∧ (∀ t2, C.computeId u.pubkey t2 u.kind u.tags u.content ≠ u.id →
          Event.verify_with_context C { e with created_at := t2 } =
            Except.error EventError.InvalidSignature)
      ∧ (∀ k2, C.computeId u.pubkey u.created_at k2 u.tags u.content ≠ u.id →
          Event.verify_with_context C { e with kind := k2 } =
            Except.error EventError.InvalidSignature)
      ∧ (∀ tg2, C.computeId u.pubkey u.created_at u.kind tg2 u.content ≠ u.id →
          Event.verify_with_context C { e with tags := tg2 } =
            Except.error EventError.InvalidSignature)
      ∧ (∀ p2, C.schnorrVerify (C.signSchnorr kp u.id)
            (C.computeId p2 u.created_at u.kind u.tags u.content) p2 = false →
          Event.verify_with_context C { e with pubkey := p2 } =
            Except.error EventError.InvalidSignature)
      ∧ (∀ s2, C.schnorrVerify s2 u.id u.pubkey = false →
          Event.verify_with_context C { e with sig := s2 } =
            Except.error EventError.InvalidSignature) := by
  have hsign : u.sign C keys = Except.ok
      { id := u.id, pubkey := u.pubkey, created_at := u.created_at, kind := u.kind
        tags := u.tags, content := u.content, sig := C.signSchnorr kp u.id } := by
    unfold UnsignedEvent.sign Keys.sign_schnorr
    rw [hkp]
  refine ⟨_, hsign, rfl, ?_, ?_, ?_, ?_, ?_, ?_, ?_, ?_⟩
  · simp [verify_def, hid, hok]
  · intro id2
    simp [verify_def, hid, hok]
  · intro c2 hne
    simp [verify_def, hbind _ hne]
  · intro t2 hne
    simp [verify_def, hbind _ hne]
  · intro k2 hne
    simp [verify_def, hbind _ hne]
  · intro tg2 hne
    simp [verify_def, hbind _ hne]
  · intro p2 hne
    simp [verify_def, hne]
  · intro s2 hne
    simp [verify_def, hid, hne]

/-- Concrete correctly-addressed unsigned event: its id 40 is the toy id
recomputed from its fields. -/
def u0 : UnsignedEvent :=
  { id := 40, pubkey := 7, created_at := { val := 5 }, kind := 1, tags := [], content := "" }

/-- Concrete keys holding secret key 7 in the toy context. -/
def k0 : Keys := Keys.new toyCtx 7

/-- The event `u0.sign` produces under the toy context. -/
def e0 : Event :=
  { id := 40, pubkey := 7, created_at := { val := 5 }, kind := 1, tags := [], content := ""
    sig := Nat.pair 7 40 }

/-- C2 witness: the corrected statement evaluated on a concrete unsigned
event, key and context. -/
theorem sign_then_verify_w :
    UnsignedEvent.sign toyCtx u0 k0 = Except.ok e0
    ∧ Event.verify_with_context toyCtx e0 = Except.ok ()
    ∧ Event.verify_with_context toyCtx { e0 with content := "x" } =
        Except.error EventError.InvalidSignature := by
  obtain ⟨e, h1, hsg, hv, hid2, hc, ht, hk, htg, hp, hs2⟩ :=
    sign_then_verify toyCtx u0 k0 7 (by decide) (by decide) (by decide)
      (fun m hm => toyCtx_bind 7 40 m 7 hm)
  have hs0 : UnsignedEvent.sign toyCtx u0 k0 = Except.ok e0 := by decide
  have he : e = e0 := Except.ok.inj (h1.symm.trans hs0)
  subst he
  exact ⟨hs0, hv, hc "x" (by decide)⟩

/-- C2 counterexample: on the event produced by `sign`, changing the
stored id (here: every byte of a 32-byte id changed would do, the model
shows a changed id value) leaves `verify` succeeding, because `verify`
never consults the stored id. -/
theorem sign_flip_id_still_verifies :
    UnsignedEvent.sign toyCtx u0 k0 = Except.ok e0
    ∧ e0.id + 1 ≠ e0.id
    ∧ Event.verify_with_context toyCtx { e0 with id := e0.id + 1 } = Except.ok () := by
  refine ⟨by decide, by decide, by decide⟩

/-- C5: a `Keys` built by `from_public_key` holds no secret, so
`sign_schnorr` fails with `SkMissing` on every message while the stored
public key is returned unchanged; a `Keys` built by `new` from a secret
key signs successfully. -/
theorem keys_sign_schnorr_spec (C : CryptoCtx) (pk : Pubkey) (sk : SecretKey) (m m2 : EventId) :
    ((Keys.from_public_key pk).sign_schnorr C m = Except.error KeyError.SkMissing)
    ∧ ((Keys.from_public_key pk).public_key = pk)
    ∧ ((Keys.new C sk).sign_schnorr C m2 =
        Except.ok (C.signSchnorr (C.keypairFromSecret sk) m2)) :=
  ⟨rfl, rfl, rfl⟩

/-- C5 witness: concrete evaluation of the key behaviour. -/
theorem keys_sign_schnorr_spec_w :
    (Keys.from_public_key 5).sign_schnorr toyCtx 3 = Except.error KeyError.SkMissing
    ∧ (Keys.new toyCtx 7).sign_schnorr toyCtx 40 = Except.ok (Nat.pair 7 40) :=
  ⟨(keys_sign_schnorr_spec toyCtx 5 7 3 40).1, (keys_sign_schnorr_spec toyCtx 5 7 3 40).2.2⟩

/-- C8: `add_signature` returns `Ok e` exactly when the event assembled
from the unsigned fields and the given signature passes `verify`, and
then `e` is that assembled event: every field of `e` equals the
corresponding unsigned field and `e.sig` is the given signature.  On
failure the verification error is propagated (wrapped in the `Event`
variant) and no event is produced. -/
theorem add_signature_iff_verify (C : CryptoCtx) (u : UnsignedEvent) (sig : Sig) :
    (∀ e, u.add_signature C sig = Except.ok e ↔
      ((u.assemble sig).verify_with_context C = Except.ok () ∧ e = u.assemble sig))
    ∧ ((u.assemble sig).id = u.id ∧ (u.assemble sig).pubkey = u.pubkey
        ∧ (u.assemble sig).created_at = u.created_at ∧ (u.assemble sig).kind = u.kind
        ∧ (u.assemble sig).tags = u.tags ∧ (u.assemble sig).content = u.content
        ∧ (u.assemble sig).sig = sig)
    ∧ (∀ err, u.add_signature C sig = Except.error err →
        ∃ e2, err = UnsignedError.Event e2
          ∧ (u.assemble sig).verify_with_context C = Except.error e2) := by
  have hdef : u.add_signature C sig =
      (match (u.assemble sig).verify_with_context C with
        | Except.error e2 => Except.error (UnsignedError.Event e2)
        | Except.ok _ => Except.ok (u.assemble sig)) := rfl
  refine ⟨?_, ⟨rfl, rfl, rfl, rfl, rfl, rfl, rfl⟩, ?_⟩
  · intro e
    rw [hdef]
    constructor
    · intro h
      split at h
      · cases h
      · next x heq =>
          cases x
          injection h with h2
          exact ⟨heq, h2.symm⟩
    · rintro ⟨hv, he⟩
      rw [hv, he]
  · intro err herr
    rw [hdef] at herr
    split at herr
    · next e2 heq =>
        injection herr with h2
        exact ⟨e2, h2.symm, heq⟩
    · cases herr

/-- C8 witness: `add_signature` evaluated on a concrete unsigned event
with a valid and with an invalid signature. -/
theorem add_signature_iff_verify_w :
    UnsignedEvent.add_signature toyCtx
        { id := 40, pubkey := 7, created_at := { val := 5 }, kind := 1, tags := [], content := "" }
        (Nat.pair 7 40) =
      Except.ok (UnsignedEvent.assemble
        { id := 40, pubkey := 7, created_at := { val := 5 }, kind := 1, tags := [], content := "" }
        (Nat.pair 7 40)) := by
  have h := (add_signature_iff_verify toyCtx
    { id := 40, pubkey := 7, created_at := { val := 5 }, kind := 1, tags := [], content := "" }
    (Nat.pair 7 40)).1 (UnsignedEvent.assemble
      { id := 40, pubkey := 7, created_at := { val := 5 }, kind := 1, tags := [], content := "" }
      (Nat.pair 7 40))
  exact h.mpr ⟨by decide, rfl⟩

/-- Lower bound of the signed 64-bit range. -/
def i64Min : Int := -(2 ^ 63)

/-- Upper bound of the signed 64-bit range. -/
def i64Max : Int := 2 ^ 63 - 1

/-- `i64::saturating_add` on in-range operands: the mathematical sum
clamped to the signed 64-bit range. -/
def i64SaturatingAdd (a b : Int) : Int := max i64Min (min i64Max (a + b))

/-- `i64::saturating_sub` on in-range operands. -/
def i64SaturatingSub (a b : Int) : Int := max i64Min (min i64Max (a - b))

/-- The Rust cast `(n : u64) as i64`: a wrapping reinterpretation, not a
saturation — values at or above `2 ^ 63` come out negative. -/
def u64AsI64 (n : Nat) : Int := if n < 2 ^ 63 then (n : Int) else (n : Int) - 2 ^ 64

/-- `core::time::Duration`, reduced to what the embedded code reads from
it: `as_secs()`, an unsigned 64-bit second count. -/
structure Duration where
  secs : Nat
deriving DecidableEq

/-- `impl Add<i64> for Timestamp` (types/time.rs lines 221-226). -/
def Timestamp.addI64 (t : Timestamp) (rhs : Int) : Timestamp :=
  { val := i64SaturatingAdd t.val rhs }

/-- `impl Sub<i64> for Timestamp` (types/time.rs lines 228-233). -/
def Timestamp.subI64 (t : Timestamp) (rhs : Int) : Timestamp :=
  { val := i64SaturatingSub t.val rhs }

/-- `impl Add<u64> for Timestamp` (types/time.rs lines 207-212): the u64
operand is first cast with `as i64` — wrapping — then added. -/
def Timestamp.addU64 (t : Timestamp) (rhs : Nat) : Timestamp :=
  t.addI64 (u64AsI64 rhs)

/-- `impl Sub<u64> for Timestamp` (types/time.rs lines 214-219). -/
def Timestamp.subU64 (t : Timestamp) (rhs : Nat) : Timestamp :=
  t.subI64 (u64AsI64 rhs)

/-- `impl Add<Duration> for Timestamp` (types/time.rs lines 193-198):
`saturating_add(rhs.as_secs() as i64)`. -/
def Timestamp.addDuration (t : Timestamp) (rhs : Duration) : Timestamp :=
  { val := i64SaturatingAdd t.val (u64AsI64 rhs.secs) }

/-- `impl Sub<Duration> for Timestamp` (types/time.rs lines 200-205). -/
def Timestamp.subDuration (t : Timestamp) (rhs : Duration) : Timestamp :=
  { val := i64SaturatingSub t.val (u64AsI64 rhs.secs) }

/-- `Timestamp::as_u64` (types/time.rs lines 159-166). -/
def Timestamp.as_u64 (t : Timestamp) : Nat :=
  if 0 ≤ t.val then t.val.toNat else 0

/-- `Timestamp::as_i64` (types/time.rs lines 168-171). -/
def Timestamp.as_i64 (t : Timestamp) : Int := t.val

/-- C9: timestamp arithmetic saturates at the signed 64-bit bounds for
`i64` operands and the result always stays in range; for `u64` and
`Duration` operands the operand is first converted with the wrapping cast
`as i64`, so the saturation of the true sum only holds for operand values
below `2 ^ 63`, while larger operands wrap (they act as the negative
value `n - 2 ^ 64`); `as_u64` returns 0 on negative timestamps and the
value itself otherwise. -/
theorem timestamp_arith_spec (t : Timestamp) (d : Int) (n : Nat) (dur : Duration) :
    ((t.addI64 d).val = max i64Min (min i64Max (t.val + d)))
    ∧ ((t.subI64 d).val = max i64Min (min i64Max (t.val - d)))
    ∧ (i64Min ≤ (t.addI64 d).val ∧ (t.addI64 d).val ≤ i64Max)
    ∧ (n < 2 ^ 63 →
        (t.addU64 n).val = max i64Min (min i64Max (t.val + n))
        ∧ (t.subU64 n).val = max i64Min (min i64Max (t.val - n)))
    ∧ (2 ^ 63 ≤ n → n < 2 ^ 64 →
        (t.addU64 n).val = max i64Min (min i64Max (t.val + n - 2 ^ 64))
        ∧ (t.subU64 n).val = max i64Min (min i64Max (t.val - (n - (2 ^ 64 : Int)))))
    ∧ (dur.secs < 2 ^ 63 →
        (t.addDuration dur).val = max i64Min (min i64Max (t.val + dur.secs))
        ∧ (t.subDuration dur).val = max i64Min (min i64Max (t.val - dur.secs)))
    ∧ (t.val < 0 → t.as_u64 = 0)
    ∧ (0 ≤ t.val → (t.as_u64 : Int) = t.val) := by
  have hmin : ∀ m : Nat, m < 2 ^ 63 → u64AsI64 m = (m : Int) := by
    intro m hm
    rw [u64AsI64, if_pos hm]
  have hmax : ∀ m : Nat, ¬m < 2 ^ 63 → u64AsI64 m = (m : Int) - 2 ^ 64 := by
    intro m hm
    rw [u64AsI64, if_neg hm]
  refine ⟨rfl, rfl, ⟨le_max_left _ _, ?_⟩, ?_, ?_, ?_, ?_, ?_⟩
  · have h1 : min i64Max (t.val + d) ≤ i64Max := min_le_left _ _
    have h2 : i64Min ≤ i64Max := by decide
    simp only [Timestamp.addI64, i64SaturatingAdd]
    exact max_le h2 h1
  · intro hn
    constructor
    · simp [Timestamp.addU64, Timestamp.addI64, i64SaturatingAdd, hmin n hn]
    · simp [Timestamp.subU64, Timestamp.subI64, i64SaturatingSub, hmin n hn]
  · intro hn1 hn2
    have hn : ¬n < 2 ^ 63 := not_lt.mpr hn1
    constructor
    · simp only [Timestamp.addU64, Timestamp.addI64, i64SaturatingAdd, hmax n hn,
        add_sub_assoc]
    · simp only [Timestamp.subU64, Timestamp.subI64, i64SaturatingSub, hmax n hn]
  · intro hd
    constructor
    · simp [Timestamp.addDuration, i64SaturatingAdd, hmin dur.secs hd]
    · simp [Timestamp.subDuration, i64SaturatingSub, hmin dur.secs hd]
  · intro hneg
    simp [Timestamp.as_u64, not_le.mpr hneg]
  · intro hpos
    simp [Timestamp.as_u64, hpos, Int.toNat_of_nonneg hpos]

/-- C9 witness: the characterization evaluated on concrete operands on
both sides of the `2 ^ 63` boundary. -/
theorem timestamp_arith_spec_w :
    (Timestamp.addU64 { val := 0 } 5).val = max i64Min (min i64Max ((0 : Int) + (5 : Nat)))
    ∧ (Timestamp.addU64 { val := 0 } (2 ^ 63)).val =
        max i64Min (min i64Max ((0 : Int) + ((2 ^ 63 : Nat) : Int) - 2 ^ 64))
    ∧ Timestamp.as_u64 { val := -3 } = 0 := by
  refine ⟨?_, ?_, ?_⟩
  · exact ((timestamp_arith_spec { val := 0 } 0 5 { secs := 0 }).2.2.2.1 (by norm_num)).1
  · exact ((timestamp_arith_spec { val := 0 } 0 (2 ^ 63) { secs := 0 }).2.2.2.2.1
      (by norm_num) (by norm_num)).1
  · exact (timestamp_arith_spec { val := -3 } 0 5 { secs := 0 }).2.2.2.2.2.2.1 (by norm_num)

/-- C9 counterexample: adding the u64 operand `2 ^ 63` to timestamp 0
does not saturate at the upper signed 64-bit bound as claimed — the
operand wraps through the `as i64` cast and the result is the *lower*
bound `-(2 ^ 63)`. -/
theorem timestamp_addU64_wraps :
    (Timestamp.addU64 { val := 0 } (2 ^ 63)).val = -(2 ^ 63)
    ∧ (Timestamp.addU64 { val := 0 } (2 ^ 63)).val ≠
        max i64Min (min i64Max ((0 : Int) + ((2 ^ 63 : Nat) : Int))) := by
  constructor
  · decide
  · decide

/-- A relay endpoint, identified by its URL. -/
abbrev RelayUrl := String

/-- Whether an event with the given id is already in the collected set. -/
def seenId (acc : List Event) (i : EventId) : Bool :=
  acc.any fun x => x.id == i

/-- Modelled from the spec: the collection step of
`RelayPool::get_events_of` (the relay pool of crates/nostr-sdk is not
under src/) — an incoming EVENT is added to the collected set only when
no event with its id has been collected yet. -/
def dedupInsert (acc : List Event) (e : Event) : List Event :=
  if seenId acc e.id then acc else acc ++ [e]

/-- The collection loop over the relay-tagged deliveries, carrying the
set collected so far. -/
def getEventsOfAux (acc : List Event) : List (RelayUrl × Event) → List Event
  | [] => acc
  | d :: ds => getEventsOfAux (dedupInsert acc d.2) ds

/-- Modelled from the spec: `RelayPool::get_events_of` collects the EVENT
messages delivered by the relays "into a set deduplicated by event id";
the deliveries are the (relay, event) pairs received before resolution,
in arrival order. -/
def getEventsOf (deliveries : List (RelayUrl × Event)) : List Event :=
  getEventsOfAux [] deliveries

theorem mem_getEventsOfAux_of_mem (x : Event) (ds : List (RelayUrl × Event)) :
    ∀ acc, x ∈ acc → x ∈ getEventsOfAux acc ds := by
  induction ds with
  | nil => intro acc h; exact h
  | cons d ds ih =>
    intro acc h
    refine ih (dedupInsert acc d.2) ?_
    unfold dedupInsert
    split
    · exact h
    · exact List.mem_append_left _ h

theorem pairwise_getEventsOfAux (ds : List (RelayUrl × Event)) :
    ∀ acc, (acc.Pairwise fun a b => a.id ≠ b.id) →
      ((getEventsOfAux acc ds).Pairwise fun a b => a.id ≠ b.id) := by
  induction ds with
  | nil => intro acc h; exact h
  | cons d ds ih =>
    intro acc h
    refine ih (dedupInsert acc d.2) ?_
    unfold dedupInsert
    split
    · exact h
    · next hseen =>
        rw [List.pairwise_append]
        refine ⟨h, List.pairwise_singleton _ _, ?_⟩
        intro a ha b hb
        rw [List.mem_singleton] at hb
        subst hb
        have := List.any_eq_false.mp (Bool.not_eq_true _ ▸ hseen) a ha
        simpa using this

/-- Some collected event carries the given id. -/
def idCovered (acc : List Event) (i : EventId) : Prop :=
  ∃ x, x ∈ acc ∧ x.id = i

theorem idCovered_getEventsOfAux (ds : List (RelayUrl × Event)) :
    ∀ acc i, idCovered acc i → idCovered (getEventsOfAux acc ds) i := by
  intro acc i h
  obtain ⟨x, hx, hxi⟩ := h
  exact ⟨x, mem_getEventsOfAux_of_mem x ds acc hx, hxi⟩

theorem idCovered_dedupInsert (acc : List Event) (e : Event) :
    idCovered (dedupInsert acc e) e.id := by
  unfold dedupInsert
  split
  · next hseen =>
      obtain ⟨x, hx, hxe⟩ := List.any_eq_true.mp hseen
      exact ⟨x, hx, by simpa using hxe⟩
  · exact ⟨e, List.mem_append_right _ (List.mem_singleton_self e), rfl⟩

theorem delivered_idCovered (ds : List (RelayUrl × Event)) :
    ∀ acc r e, (r, e) ∈ ds → idCovered (getEventsOfAux acc ds) e.id := by
  induction ds with
  | nil => intro acc r e h; cases h
  | cons d ds ih =>
    intro acc r e h
    rcases List.mem_cons.mp h with h1 | h2
    · have : d.2 = e := by rw [← h1]
      subst this
      exact idCovered_getEventsOfAux ds (dedupInsert acc d.2) d.2.id
        (idCovered_dedupInsert acc d.2)
    · exact ih (dedupInsert acc d.2) r e h2

theorem getEventsOfAux_sub (ds : List (RelayUrl × Event)) :
    ∀ acc x, x ∈ getEventsOfAux acc ds → x ∈ acc ∨ ∃ r, (r, x) ∈ ds := by
  induction ds with
  | nil => intro acc x h; exact Or.inl h
  | cons d ds ih =>
    intro acc x h
    rcases ih (dedupInsert acc d.2) x h with h1 | ⟨r, hr⟩
    · unfold dedupInsert at h1
      split at h1
      · exact Or.inl h1
      · rcases List.mem_append.mp h1 with h2 | h3
        · exact Or.inl h2
        · rw [List.mem_singleton] at h3
          subst h3
          exact Or.inr ⟨d.1, List.mem_cons_self _ _⟩
    · exact Or.inr ⟨r, List.mem_cons_of_mem _ hr⟩

theorem filter_id_length_one (l : List Event) (i : EventId)
    (hp : l.Pairwise fun a b => a.id ≠ b.id) (hc : idCovered l i) :
    (l.filter fun x => x.id == i).length = 1 := by
  induction l with
  | nil => obtain ⟨x, hx, _⟩ := hc; cases hx
  | cons h t ih =>
    rw [List.pairwise_cons] at hp
    by_cases hhi : h.id = i
    · have hrest : (t.filter fun x => x.id == i) = [] := by
        rw [List.filter_eq_nil_iff]
        intro a ha
        have := hp.1 a ha
        simp only [beq_iff_eq]
        rw [← hhi]
        intro hcon
        exact this hcon.symm
      simp [List.filter_cons, hhi, hrest]
    · obtain ⟨x, hx, hxi⟩ := hc
      rcases List.mem_cons.mp hx with h1 | h2
      · subst h1; exact absurd hxi hhi
      · have := ih hp.2 ⟨x, h2, hxi⟩
        simpa [List.filter_cons, hhi] using this

/-- C3: the result of `get_events_of` is deduplicated by event id: result
events have pairwise distinct ids, every delivered event is represented
by exactly one result event with its id (so the same event delivered by
two relays collapses to one), and every result event was delivered by
some relay. -/
theorem get_events_of_dedup (ds : List (RelayUrl × Event)) :
    ((getEventsOf ds).Pairwise fun a b => a.id ≠ b.id)
    ∧ (∀ r e, (r, e) ∈ ds → ∃ e2, e2 ∈ getEventsOf ds ∧ e2.id = e.id)
    ∧ (∀ e2, e2 ∈ getEventsOf ds → ∃ r, (r, e2) ∈ ds)
    ∧ (∀ r1 r2 e, (r1, e) ∈ ds → (r2, e) ∈ ds →
        ((getEventsOf ds).filter fun x => x.id == e.id).length = 1) := by
  have hpair : (getEventsOf ds).Pairwise fun a b => a.id ≠ b.id :=
    pairwise_getEventsOfAux ds [] List.Pairwise.nil
  refine ⟨hpair, ?_, ?_, ?_⟩
  · intro r e h
    exact delivered_idCovered ds [] r e h
  · intro e2 h
    rcases getEventsOfAux_sub ds [] e2 h with h1 | h2
    · cases h1
    · exact h2
  · intro r1 r2 e h1 h2
    exact filter_id_length_one (getEventsOf ds) e.id hpair (delivered_idCovered ds [] r1 e h1)

/-- Concrete events and deliveries for the dedup witness. -/
def evA : Event :=
  { id := 1, pubkey := 2, created_at := { val := 3 }, kind := 1, tags := [], content := "a"
    sig := 4 }

/-- A second concrete event with a different id. -/
def evB : Event :=
  { id := 9, pubkey := 2, created_at := { val := 3 }, kind := 1, tags := [], content := "b"
    sig := 4 }

/-- The same event delivered by two different relays, plus one other
event. -/
def ds0 : List (RelayUrl × Event) := [("wss://a", evA), ("wss://b", evA), ("wss://b", evB)]

/-- C3 witness: the dedup property evaluated on a concrete delivery list
where the same event arrives from two relays. -/
theorem get_events_of_dedup_w :
    ((getEventsOf ds0).filter fun x => x.id == evA.id).length = 1
    ∧ getEventsOf ds0 = [evA, evB] := by
  constructor
  · exact (get_events_of_dedup ds0).2.2.2 "wss://a" "wss://b" evA
      (by simp [ds0]) (by simp [ds0])
  · decide

/-- Stand-in for `RelayPoolNotification`. -/
abbrev Notification := Nat

/-- Stand-in for the client error type (client/wasm.rs lines 20-41);
only its identity matters for the notification loop. -/
abbrev LoopError := Nat

/-- The inner `while let Ok(notification) = notifications.recv().await`
body of `Client::handle_notifications` (client/wasm.rs lines 777-779):
feed each received notification to the callback, propagating the first
callback error through `?`. -/
def runBatch (func : Notification → Except LoopError Unit) :
    List Notification → Except LoopError Unit
  | [] => Except.ok ()
  | n :: ns =>
    match func n with
    | Except.error e => Except.error e
    | Except.ok () => runBatch func ns

/-- `Client::handle_notifications` (client/wasm.rs lines 770-781) as a
fuel-indexed interpreter.  `subscribe k` is the finite run of
notifications the k-th receiver created by `self.notifications()` yields
before its `recv` returns `Err` (channel closed or receiver lagged);
when that happens the inner while-loop exits and the outer `loop` starts
over with a fresh receiver.  `none` means the fuel ran out with the loop
still running; `some r` means the function returned `r` within the given
number of outer iterations. -/
def handle_notifications (func : Notification → Except LoopError Unit)
    (subscribe : Nat → List Notification) : Nat → Nat → Option (Except LoopError Unit)
  | 0, _ => none
  | fuel + 1, k =>
    match runBatch func (subscribe k) with
    | Except.error e => some (Except.error e)
    | Except.ok () => handle_notifications func subscribe fuel (k + 1)

/-- The loop returns within some finite number of outer iterations. -/
def loopTerminates (func : Notification → Except LoopError Unit)
    (subscribe : Nat → List Notification) : Prop :=
  ∃ fuel r, handle_notifications func subscribe fuel 0 = some r

theorem handle_notifications_none (func : Notification → Except LoopError Unit)
    (subscribe : Nat → List Notification)
    (hok : ∀ k, runBatch func (subscribe k) = Except.ok ()) :
    ∀ fuel k, handle_notifications func subscribe fuel k = none := by
  intro fuel
  induction fuel with
  | zero => intro k; rfl
  | succ fuel ih =>
    intro k
    unfold handle_notifications
    rw [hok k]
    exact ih (k + 1)

/-- C6: the notification loop returns only when the callback signals stop
by returning an error, and then it returns that error; whenever the
callback never errs on any receiver's run — in particular when the
broadcast channel is closed and every `recv` immediately errs, so every
run is empty — the loop never returns: closing the channel merely makes
the outer loop re-subscribe and start over. -/
theorem handle_notifications_spec (func : Notification → Except LoopError Unit)
    (subscribe : Nat → List Notification) :
    (∀ fuel k r, handle_notifications func subscribe fuel k = some r →
      ∃ e, r = Except.error e)
    ∧ (∀ e, runBatch func (subscribe 0) = Except.error e →
        ∀ fuel, handle_notifications func subscribe (fuel + 1) 0 = some (Except.error e))
    ∧ ((∀ k, runBatch func (subscribe k) = Except.ok ()) →
        ∀ fuel k, handle_notifications func subscribe fuel k = none) := by
  refine ⟨?_, ?_, ?_⟩
  · intro fuel
    induction fuel with
    | zero => intro k r h; cases h
    | succ fuel ih =>
      intro k r h
      unfold handle_notifications at h
      revert h
      cases hb : runBatch func (subscribe k) with
      | error e =>
        intro h
        cases h
        exact ⟨e, rfl⟩
      | ok x =>
        cases x
        intro h
        exact ih (k + 1) r h
  · intro e he fuel
    unfold handle_notifications
    rw [he]
  · exact handle_notifications_none func subscribe

/-- C6 witness: the characterization evaluated on a concrete callback and
concrete receiver runs — a callback that rejects notification 5, which
arrives in the first receiver's run. -/
theorem handle_notifications_spec_w :
    handle_notifications (fun n => if n == 5 then Except.error 77 else Except.ok ())
      (fun _ => [1, 5, 2]) 3 0 = some (Except.error 77) :=
  (handle_notifications_spec (fun n => if n == 5 then Except.error 77 else Except.ok ())
    (fun _ => [1, 5, 2])).2.1 77 (by decide) 2

/-- C6 counterexample: with the broadcast channel closed — every receiver
run empty — and a callback that never errs, the loop does not terminate
for any amount of fuel, refuting the claim that closing the channel is a
termination condition. -/
theorem handle_notifications_closed_channel_loops :
    ¬ loopTerminates (fun _ => Except.ok ()) (fun _ => []) := by
  rintro ⟨fuel, r, h⟩
  rw [handle_notifications_none (fun _ => Except.ok ()) (fun _ => [])
    (fun _ => rfl) fuel 0] at h
  cases h

/-- Modelled from the spec: the client-to-relay message variants of §6
(message/client.rs is not under src/); only the EVENT variant matters for
the claims below. -/
inductive ClientMessage where
  | event (e : Event)
  | req (sid : String)
  | close (sid : String)
deriving DecidableEq

/-- `ClientMessage::new_event`. -/
def ClientMessage.new_event (e : Event) : ClientMessage := ClientMessage.event e

/-- Modelled from the spec: the relay-pool error cases of §4.5 (the pool
of crates/nostr-sdk is not under src/). -/
inductive RelayPoolError where
  | Shutdown
  | RelayNotFound
deriving DecidableEq

/-- Modelled from the spec: `event::builder::Error` (event/builder.rs is
not under src/) — building fails when the signing identity holds no
secret key. -/
inductive EventBuilderError where
  | Key (e : KeyError)
deriving DecidableEq

/-- `client::wasm::Error` (client/wasm.rs lines 20-41). -/
inductive ClientError where
  | Url
  | RelayPool (e : RelayPoolError)
  | RelayNotFound
  | EventBuilder (e : EventBuilderError)
  | Secp256k1
  | Hex
deriving DecidableEq

/-- The relay pool, reduced to what the facade observes of it for these
claims: the outcome `RelayPool::send_msg` reports for a message.  The
messages actually handed to the pool are tracked by explicit state
passing (the `log` arguments below). -/
structure RelayPool where
  sendOutcome : ClientMessage → Except RelayPoolError Unit

/-- `Client` (client/wasm.rs lines 43-48). -/
structure Client where
  pool : RelayPool
  keys : Keys

/-- `Client::send_msg` (client/wasm.rs lines 321-324): hand the message
to the pool, converting a pool error into a client error. -/
def Client.send_msg (c : Client) (log : List ClientMessage) (msg : ClientMessage) :
    List ClientMessage × Except ClientError Unit :=
  (log ++ [msg],
    match c.pool.sendOutcome msg with
    | Except.ok () => Except.ok ()
    | Except.error e => Except.error (ClientError.RelayPool e))

/-- `Client::send_event` (client/wasm.rs lines 336-340): remember the
event's id, submit `ClientMessage::new_event(event)` through the pool,
and return the remembered id on success. -/
def Client.send_event (c : Client) (log : List ClientMessage) (event : Event) :
    List ClientMessage × Except ClientError EventId :=
  let event_id := event.id
  match c.send_msg log (ClientMessage.new_event event) with
  | (log2, Except.ok ()) => (log2, Except.ok event_id)
  | (log2, Except.error e) => (log2, Except.error e)

/-- An event builder: the intent-level fields from which `to_event`
builds one event (event/builder.rs, not under src/). -/
structure EventBuilder where
  kind : Kind
  tags : List Tag
  content : String
deriving DecidableEq

/-- Modelled from the spec: `EventBuilder::to_event` — stamp `created_at`
with the current time, compute the id from the fields, and sign with the
keys; fails when the keys cannot sign. -/
def EventBuilder.to_event (C : CryptoCtx) (now : Timestamp) (b : EventBuilder) (keys : Keys) :
    Except EventBuilderError Event :=
  let id := C.computeId keys.public_key now b.kind b.tags b.content
  match keys.sign_schnorr C id with
  | Except.error e => Except.error (EventBuilderError.Key e)
  | Except.ok sig =>
    Except.ok
      { id := id, pubkey := keys.public_key, created_at := now, kind := b.kind
        tags := b.tags, content := b.content, sig := sig }

/-- `Client::send_event_builder` (client/wasm.rs lines 353-356): build
the event with the client's keys, then `send_event`. -/
def Client.send_event_builder (C : CryptoCtx) (now : Timestamp) (c : Client)
    (log : List ClientMessage) (builder : EventBuilder) :
    List ClientMessage × Except ClientError EventId :=
  match builder.to_event C now c.keys with
  | Except.error e => (log, Except.error (ClientError.EventBuilder e))
  | Except.ok event => c.send_event log event

/-- Modelled from the spec: `EventBuilder::new_text_note` — kind-1 note
with the given content and tags. -/
def EventBuilder.new_text_note (content : String) (tags : List Tag) : EventBuilder :=
  { kind := 1, tags := tags, content := content }

/-- Modelled from the spec: `EventBuilder::set_metadata` — kind-0 event
whose content is the serialized metadata. -/
def EventBuilder.set_metadata (metadata : String) : EventBuilder :=
  { kind := 0, tags := [], content := metadata }

/-- Modelled from the spec: `EventBuilder::new_reaction` — kind-7 event
referencing the reacted event and its author. -/
def EventBuilder.new_reaction (event_id : EventId) (public_key : Pubkey)
    (content : String) : EventBuilder :=
  { kind := 7, tags := [["e", toString event_id], ["p", toString public_key]]
    content := content }

/-- Modelled from the spec: `EventBuilder::delete` — kind-5 event
referencing the deleted events, with the optional reason as content. -/
def EventBuilder.delete (ids : List EventId) (reason : Option String) : EventBuilder :=
  { kind := 5, tags := ids.map fun i => ["e", toString i]
    content := reason.getD "" }

/-- `Client::publish_text_note` (client/wasm.rs lines 403-409). -/
def Client.publish_text_note (C : CryptoCtx) (now : Timestamp) (c : Client)
    (log : List ClientMessage) (content : String) (tags : List Tag) :
    List ClientMessage × Except ClientError EventId :=
  c.send_event_builder C now log (EventBuilder.new_text_note content tags)

/-- `Client::set_metadata` (client/wasm.rs lines 380-383). -/
def Client.set_metadata (C : CryptoCtx) (now : Timestamp) (c : Client)
    (log : List ClientMessage) (metadata : String) :
    List ClientMessage × Except ClientError EventId :=
  c.send_event_builder C now log (EventBuilder.set_metadata metadata)

/-- `Client::like` (client/wasm.rs lines 607-614). -/
def Client.like (C : CryptoCtx) (now : Timestamp) (c : Client) (log : List ClientMessage)
    (event_id : EventId) (public_key : Pubkey) :
    List ClientMessage × Except ClientError EventId :=
  c.send_event_builder C now log (EventBuilder.new_reaction event_id public_key "+")

/-- `Client::delete_event` (client/wasm.rs lines 570-580). -/
def Client.delete_event (C : CryptoCtx) (now : Timestamp) (c : Client)
    (log : List ClientMessage) (event_id : EventId) (reason : Option String) :
    List ClientMessage × Except ClientError EventId :=
  c.send_event_builder C now log (EventBuilder.delete [event_id] reason)

/-- C7: `send_event` returns, on success, exactly the id of the event it
submitted, and it submits exactly that one event; `send_event_builder`
submits the one event the builder produced and returns its id on
success; and each per-intent helper is `send_event_builder` applied to
its builder, so the same holds for all of them. -/
theorem client_send_returns_built_id (C : CryptoCtx) (now : Timestamp) (c : Client)
    (log : List ClientMessage) :
    (∀ e log2 eid, c.send_event log e = (log2, Except.ok eid) →
      eid = e.id ∧ log2 = log ++ [ClientMessage.event e])
    ∧ (∀ b e, b.to_event C now c.keys = Except.ok e →
        (c.send_event_builder C now log b = c.send_event log e
          ∧ ∀ log2 eid, c.send_event_builder C now log b = (log2, Except.ok eid) →
              eid = e.id ∧ log2 = log ++ [ClientMessage.event e]))
    ∧ (∀ content tags, c.publish_text_note C now log content tags =
        c.send_event_builder C now log (EventBuilder.new_text_note content tags))
    ∧ (∀ m, c.set_metadata C now log m =
        c.send_event_builder C now log (EventBuilder.set_metadata m))
    ∧ (∀ i p, c.like C now log i p =
        c.send_event_builder C now log (EventBuilder.new_reaction i p "+"))
    ∧ (∀ i r, c.delete_event C now log i r =
        c.send_event_builder C now log (EventBuilder.delete [i] r)) := by
  have hsend : ∀ e log2 eid, c.send_event log e = (log2, Except.ok eid) →
      eid = e.id ∧ log2 = log ++ [ClientMessage.event e] := by
    intro e log2 eid h
    unfold Client.send_event Client.send_msg at h
    revert h
    cases ho : c.pool.sendOutcome (ClientMessage.new_event e) with
    | ok x =>
      cases x
      intro h
      simp only [ClientMessage.new_event, ho] at h
      injection h with h1 h2
      injection h2 with h3
      exact ⟨h3.symm, h1.symm⟩
    | error e2 =>
      intro h
      simp only [ClientMessage.new_event, ho] at h
      injection h with h1 h2
      injection h2
  refine ⟨hsend, ?_, fun content tags => rfl, fun m => rfl, fun i p => rfl, fun i r => rfl⟩
  intro b e hb
  have heq : c.send_event_builder C now log b = c.send_event log e := by
    unfold Client.send_event_builder
    rw [hb]
  exact ⟨heq, fun log2 eid h => hsend e log2 eid (heq ▸ h)⟩

/-- A pool that accepts every message, for the facade witness. -/
def okPool : RelayPool := { sendOutcome := fun _ => Except.ok () }

/-- A concrete client over the toy crypto context. -/
def c0 : Client := { pool := okPool, keys := k0 }

/-- C7 witness: publishing a concrete text note submits exactly the built
event and returns its id. -/
theorem client_send_returns_built_id_w :
    c0.publish_text_note toyCtx { val := 5 } [] "" [] =
      ([ClientMessage.event e0], Except.ok e0.id) := by
  have h := (client_send_returns_built_id toyCtx { val := 5 } c0 []).2.2.1 "" []
  have hb : (EventBuilder.new_text_note "" []).to_event toyCtx { val := 5 } c0.keys =
      Except.ok e0 := by decide
  have h2 := ((client_send_returns_built_id toyCtx { val := 5 } c0 []).2.1
    (EventBuilder.new_text_note "" []) e0 hb).1
  rw [h, h2]
  decide

/-- A JSON value.  The string-level printing and parsing is serde_json,
an external collaborator; the embedding works at the value level. -/
inductive Json where
  | str (s : String)
  | num (n : Int)
  | arr (xs : List Json)
  | obj (fields : List (String × Json))
  | null

/-- Field lookup in a JSON object: the first binding of the key wins;
a missing key is a deserialization error. -/
def getField (fields : List (String × Json)) (key : String) : Except EventError Json :=
  match fields with
  | [] => Except.error EventError.Json
  | (k, v) :: rest => if k = key then Except.ok v else getField rest key

/-- Decode an unsigned integer field. -/
def decodeNat : Json → Except EventError Nat
  | Json.num n => if 0 ≤ n then Except.ok n.toNat else Except.error EventError.Json
  | _ => Except.error EventError.Json

/-- Decode a signed integer field (`created_at` is a signed 64-bit
timestamp). -/
def decodeInt : Json → Except EventError Int
  | Json.num n => Except.ok n
  | _ => Except.error EventError.Json

/-- Decode a string field. -/
def decodeStr : Json → Except EventError String
  | Json.str s => Except.ok s
  | _ => Except.error EventError.Json

/-- Decode a JSON array of strings. -/
def decodeStrList : List Json → Except EventError (List String)
  | [] => Except.ok []
  | j :: js =>
    match decodeStr j with
    | Except.error e => Except.error e
    | Except.ok s =>
      match decodeStrList js with
      | Except.error e => Except.error e
      | Except.ok ss => Except.ok (s :: ss)

/-- Decode one tag: a JSON array of strings. -/
def decodeTag : Json → Except EventError Tag
  | Json.arr xs => decodeStrList xs
  | _ => Except.error EventError.Json

/-- Decode the tag list. -/
def decodeTagList : List Json → Except EventError (List Tag)
  | [] => Except.ok []
  | j :: js =>
    match decodeTag j with
    | Except.error e => Except.error e
    | Except.ok t =>
      match decodeTagList js with
      | Except.error e => Except.error e
      | Except.ok ts => Except.ok (t :: ts)

/-- Decode the `tags` field. -/
def decodeTags : Json → Except EventError (List Tag)
  | Json.arr xs => decodeTagList xs
  | _ => Except.error EventError.Json

/-- A tag serializes as a JSON array of strings. -/
def Tag.toJson (t : Tag) : Json := Json.arr (t.map Json.str)

/-- Modelled from the spec: the Event JSON object of §6 — keys `id,
pubkey, created_at, kind, tags, content, sig` (the serde impls of
EventId, Kind and Tag in event/id.rs, event/kind.rs and event/tag.rs are
not under src/, and serde_json is external; the 32/64-byte hex-string
fields are abstracted to their numeric stand-in values). -/
def Event.toJsonValue (e : Event) : Json :=
  Json.obj
    [("id", Json.num e.id), ("pubkey", Json.num e.pubkey),
     ("created_at", Json.num e.created_at.val), ("kind", Json.num e.kind),
     ("tags", Json.arr (e.tags.map Tag.toJson)), ("content", Json.str e.content),
     ("sig", Json.num e.sig)]

/-- Modelled from the spec: `Event::from_json` at the value level — an
object carrying all seven fields, in any key order, decodes to the event;
anything else is a `Json` error. -/
def Event.fromJsonValue : Json → Except EventError Event
  | Json.obj fields => do
    let id ← decodeNat (← getField fields "id")
    let pubkey ← decodeNat (← getField fields "pubkey")
    let created_at ← decodeInt (← getField fields "created_at")
    let kind ← decodeNat (← getField fields "kind")
    let tags ← decodeTags (← getField fields "tags")
    let content ← decodeStr (← getField fields "content")
    let sig ← decodeNat (← getField fields "sig")
    pure { id := id, pubkey := pubkey, created_at := { val := created_at }, kind := kind
           tags := tags, content := content, sig := sig }
  | _ => Except.error EventError.Json

theorem decodeNat_natCast (n : Nat) : decodeNat (Json.num n) = Except.ok n := by
  simp only [decodeNat]
  rw [if_pos (Int.natCast_nonneg n), Int.toNat_natCast]

theorem decodeStrList_map (l : List String) :
    decodeStrList (l.map Json.str) = Except.ok l := by
  induction l with
  | nil => rfl
  | cons s ss ih =>
    unfold decodeStrList
    rw [List.map_cons]
    simp only [decodeStr, ih]

theorem decodeTagList_map (ts : List Tag) :
    decodeTagList (ts.map Tag.toJson) = Except.ok ts := by
  induction ts with
  | nil => rfl
  | cons t ts ih =>
    unfold decodeTagList
    rw [List.map_cons]
    simp only [Tag.toJson, decodeTag, decodeStrList_map, ih]

/-- C10: event JSON serialization round-trips — deserializing the
serialized form of any event succeeds and returns the event unchanged. -/
theorem event_json_roundtrip (e : Event) :
    Event.fromJsonValue (Event.toJsonValue e) = Except.ok e := by
  obtain ⟨i, p, ⟨ts⟩, k, tg, ct, sg⟩ := e
  simp [Event.toJsonValue, Event.fromJsonValue, getField, decodeNat_natCast, decodeInt,
    decodeStr, decodeTags, decodeTagList_map, Except.instMonad, Except.bind, Except.map,
    Except.pure]

end Nostr
